import Mathlib

/-!
Verification development for the Todo application's main window controller
(src/window.rs). The data model (Task, Collection), the window state
(collection sequence plus the current-collection reference), and the state
mutating operations (new_task, remove_done_tasks, new_collection,
set_current_collection, restore_data, filter) are embedded shallowly:
gio ListStore becomes List, panics become Option.none, the GTK dialog
response becomes an explicit argument.
-/

namespace Todo

/-- A task: completion flag plus text content (TaskObject's data). -/
structure Task where
  completed : Bool
  content : String
deriving Repr, DecidableEq

/-- A collection: title plus an ordered sequence of tasks (CollectionObject's data). -/
structure Collection where
  title : String
  tasks : List Task
deriving Repr, DecidableEq

/-- The loop of remove_done_tasks (window.rs lines 409-422):
while the item at position exists, remove it when completed, else advance. -/
def remove_done_tasks_go (tasks : List Task) (position : Nat) : List Task :=
  match h : tasks[position]? with
  | none => tasks
  | some item =>
    if item.completed then
      remove_done_tasks_go (tasks.eraseIdx position) position
    else
      remove_done_tasks_go tasks (position + 1)
termination_by tasks.length - position
decreasing_by
  · have hlt : position < tasks.length := (List.getElem?_eq_some.mp h).1
    have := List.length_eraseIdx_of_lt hlt
    omega
  · have hlt : position < tasks.length := (List.getElem?_eq_some.mp h).1
    omega

/-- remove_done_tasks (window.rs lines 409-422): the loop started at position 0. -/
def remove_done_tasks (tasks : List Task) : List Task :=
  remove_done_tasks_go tasks 0

/-- The loop of remove_done_tasks leaves the part before position untouched and
filters the completed tasks out of the rest. -/
theorem remove_done_tasks_go_eq (tasks : List Task) (position : Nat) :
    remove_done_tasks_go tasks position =
      tasks.take position ++ (tasks.drop position).filter (fun t => !t.completed) := by
  induction tasks, position using remove_done_tasks_go.induct with
  | case1 tasks position h =>
    rw [remove_done_tasks_go, h]
    have hlen : tasks.length ≤ position := by
      by_contra hc
      push_neg at hc
      rw [List.getElem?_eq_getElem hc] at h
      exact Option.noConfusion h
    rw [List.take_of_length_le hlen, List.drop_of_length_le hlen]
    simp
  | case2 tasks position item h hc ih =>
    rw [remove_done_tasks_go, h]
    dsimp only
    rw [if_pos hc, ih]
    have hlt : position < tasks.length := (List.getElem?_eq_some.mp h).1
    have hdrop : tasks.drop position = item :: tasks.drop (position + 1) := by
      have h1 : tasks[position] = item := by
        rw [List.getElem?_eq_getElem hlt] at h
        exact (Option.some.injEq _ _).mp h
      rw [List.drop_eq_getElem_cons hlt, h1]
    have hlentake : (tasks.take position).length = position := by
      simp
      omega
    have htake : (tasks.eraseIdx position).take position = tasks.take position := by
      rw [List.eraseIdx_eq_take_drop_succ,
          List.take_append_of_le_length (le_of_eq hlentake.symm),
          List.take_take]
      simp
    have hdrop2 : (tasks.eraseIdx position).drop position = tasks.drop (position + 1) := by
      rw [List.eraseIdx_eq_take_drop_succ,
          List.drop_append_of_le_length (le_of_eq hlentake.symm),
          List.drop_of_length_le (le_of_eq hlentake), List.nil_append]
    rw [htake, hdrop2, hdrop, List.filter_cons]
    simp [hc]
  | case3 tasks position item h hc ih =>
    rw [remove_done_tasks_go, h]
    dsimp only
    rw [if_neg hc, ih]
    have hlt : position < tasks.length := (List.getElem?_eq_some.mp h).1
    have hdrop : tasks.drop position = item :: tasks.drop (position + 1) := by
      have h1 : tasks[position] = item := by
        rw [List.getElem?_eq_getElem hlt] at h
        exact (Option.some.injEq _ _).mp h
      rw [List.drop_eq_getElem_cons hlt, h1]
    rw [List.take_succ, hdrop, List.filter_cons]
    simp [h, hc]

/-- remove_done_tasks computes the filter keeping the not-completed tasks. -/
theorem remove_done_tasks_eq_filter (tasks : List Task) :
    remove_done_tasks tasks = tasks.filter (fun t => !t.completed) := by
  rw [remove_done_tasks, remove_done_tasks_go_eq]
  simp

/-- Iteration count of the remove_done_tasks loop: one per check of
tasks.item(position), following exactly the loop of window.rs lines 409-422. -/
def remove_done_tasks_steps (tasks : List Task) (position : Nat) : Nat :=
  match h : tasks[position]? with
  | none => 0
  | some item =>
    if item.completed then
      remove_done_tasks_steps (tasks.eraseIdx position) position + 1
    else
      remove_done_tasks_steps tasks (position + 1) + 1
termination_by tasks.length - position
decreasing_by
  · have hlt : position < tasks.length := (List.getElem?_eq_some.mp h).1
    have := List.length_eraseIdx_of_lt hlt
    omega
  · have hlt : position < tasks.length := (List.getElem?_eq_some.mp h).1
    omega

/-- The loop started at position performs exactly length - position iterations. -/
theorem remove_done_tasks_steps_eq (tasks : List Task) (position : Nat) :
    remove_done_tasks_steps tasks position = tasks.length - position := by
  induction tasks, position using remove_done_tasks_steps.induct with
  | case1 tasks position h =>
    rw [remove_done_tasks_steps, h]
    dsimp only
    have hlen : tasks.length ≤ position := by
      by_contra hc
      push_neg at hc
      rw [List.getElem?_eq_getElem hc] at h
      exact Option.noConfusion h
    omega
  | case2 tasks position item h hc ih =>
    rw [remove_done_tasks_steps, h]
    dsimp only
    rw [if_pos hc, ih]
    have hlt : position < tasks.length := (List.getElem?_eq_some.mp h).1
    have := List.length_eraseIdx_of_lt hlt
    omega
  | case3 tasks position item h hc ih =>
    rw [remove_done_tasks_steps, h]
    dsimp only
    rw [if_neg hc, ih]
    have hlt : position < tasks.length := (List.getElem?_eq_some.mp h).1
    omega

/-- The predicate of the CustomFilter filter_open (window.rs lines 427-430). -/
def filter_open (t : Task) : Bool := !t.completed

/-- The predicate of the CustomFilter filter_done (window.rs lines 432-435). -/
def filter_done (t : Task) : Bool := t.completed

/-- The filter policy (window.rs lines 424-443): maps the setting string to no
predicate ("All"), the open predicate, or the done predicate. The match arm
for any other string is unreachable!(), a panic, modelled by the outer
Option's none. -/
def filter (filter_state : String) : Option (Option (Task → Bool)) :=
  if filter_state = "All" then some none
  else if filter_state = "Open" then some (some filter_open)
  else if filter_state = "Done" then some (some filter_done)
  else none

/-- new_task (window.rs lines 390-402): append a fresh not-completed task with
the entry's content, unless the content is the empty string. -/
def new_task (tasks : List Task) (content : String) : List Task :=
  if content = "" then tasks
  else tasks ++ [{ completed := false, content := content }]

/-- The window state the claims are about: the ordered collection sequence and
the current-collection reference, modelled as an index into the sequence
(the RefCell in window.rs holds an object reference; an index is the
sequence-level rendering of that non-owning pointer). -/
structure AppState where
  collections : List Collection
  current_collection : Option Nat
deriving Repr, DecidableEq

/-- The state before any collection exists: empty sequence, no current
collection (the fields as initialized in window.rs before restore_data). -/
def initialState : AppState :=
  { collections := [], current_collection := none }

/-- set_current_collection (window.rs lines 261-295): record the given
collection (by its index) as current. -/
def set_current_collection (st : AppState) (index : Nat) : AppState :=
  { st with current_collection := some index }

/-- new_collection (window.rs lines 134-184): if the dialog's response is
"cancel" the method returns with no state change; otherwise a collection with
the entered title and an empty task store is appended and made current. -/
def new_collection (st : AppState) (response : String) (title : String) : AppState :=
  if response = "cancel" then st
  else
    set_current_collection
      { st with collections := st.collections ++ [{ title := title, tasks := [] }] }
      st.collections.length

/-- The user operations over the collection sequence the selection invariant
quantifies over: the new-collection dialog flow (with its response and entered
title) and activating a collection row (window.rs lines 360-372). -/
inductive Op where
  | createCollection (response : String) (title : String)
  | selectCollection (index : Nat)
deriving Repr, DecidableEq

/-- One operation applied to the state. Row activation looks the activated
index up with item(index).expect(...) (window.rs line 365), a panic when the
index is out of range, modelled by none. -/
def step (st : AppState) : Op → Option AppState
  | Op.createCollection response title => some (new_collection st response title)
  | Op.selectCollection index =>
    if index < st.collections.length then some (set_current_collection st index)
    else none

/-- A finite sequence of operations applied in order; none as soon as one
operation panics. -/
def run (st : AppState) : List Op → Option AppState
  | [] => some st
  | op :: ops =>
    match step st op with
    | none => none
    | some st2 => run st2 ops

/-- The selection invariant: no current collection exactly when the sequence is
empty, and the current reference, when set, points at an element of the
sequence. -/
def SelInv (st : AppState) : Prop :=
  match st.current_collection with
  | none => st.collections = []
  | some index => index < st.collections.length

/-- A single operation preserves the selection invariant. -/
theorem step_preserves_SelInv (st st2 : AppState) (op : Op)
    (hinv : SelInv st) (h : step st op = some st2) : SelInv st2 := by
  cases op with
  | createCollection response title =>
    rw [step] at h
    have h2 : st2 = new_collection st response title := ((Option.some.injEq _ _).mp h).symm
    rw [h2, new_collection]
    by_cases hr : response = "cancel"
    · rw [if_pos hr]
      exact hinv
    · rw [if_neg hr]
      simp [set_current_collection, SelInv]
  | selectCollection index =>
    rw [step] at h
    by_cases hi : index < st.collections.length
    · rw [if_pos hi] at h
      have h2 : st2 = set_current_collection st index := ((Option.some.injEq _ _).mp h).symm
      rw [h2]
      simp [set_current_collection, SelInv]
      exact hi
    · rw [if_neg hi] at h
      exact Option.noConfusion h

/-- Running a sequence of operations preserves the selection invariant. -/
theorem run_preserves_SelInv (ops : List Op) (st st2 : AppState)
    (hinv : SelInv st) (h : run st ops = some st2) : SelInv st2 := by
  induction ops generalizing st with
  | nil =>
    rw [run] at h
    have h2 : st2 = st := ((Option.some.injEq _ _).mp h).symm
    rw [h2]
    exact hinv
  | cons op ops ih =>
    rw [run] at h
    cases hstep : step st op with
    | none =>
      rw [hstep] at h
      exact Option.noConfusion h
    | some stmid =>
      rw [hstep] at h
      exact ih stmid (step_preserves_SelInv st stmid op hinv hstep) h

/-- The JSON documents the persistence codec produces and consumes. -/
inductive Json where
  | str : String → Json
  | bool : Bool → Json
  | arr : List Json → Json
  | obj : List (String × Json) → Json

/-- Modelled from the spec: serde_json serialization of TaskData, the struct
behind TaskObject (src/task_object.rs, not under src/) — a JSON object with
the fields "completed" and "content" (spec section 6). -/
def taskToJson (t : Task) : Json :=
  Json.obj [("completed", Json.bool t.completed), ("content", Json.str t.content)]

/-- Modelled from the spec: serde_json serialization of CollectionData
(src/collection_object.rs, not under src/) — a JSON object with the fields
"title" and "tasks", the tasks nested verbatim (spec sections 3 and 6). -/
def collectionToJson (c : Collection) : Json :=
  Json.obj [("title", Json.str c.title), ("tasks", Json.arr (c.tasks.map taskToJson))]

/-- save as performed in close_request (window.rs lines 102-115): the whole
collection sequence becomes one JSON array, one element per collection. -/
def save (collections : List Collection) : Json :=
  Json.arr (collections.map collectionToJson)

/-- Modelled from the spec: strict serde_json deserialization of one TaskData
(src/task_object.rs, not under src/) — any structural mismatch is a fatal
load error, modelled by none (spec section 4.3). -/
def taskFromJson : Json → Option Task
  | Json.obj [("completed", Json.bool b), ("content", Json.str s)] =>
    some { completed := b, content := s }
  | _ => none

/-- Strict deserialization of a list of tasks: fails as soon as one element
fails. -/
def tasksFromJson : List Json → Option (List Task)
  | [] => some []
  | j :: js =>
    match taskFromJson j, tasksFromJson js with
    | some t, some ts => some (t :: ts)
    | _, _ => none

/-- Modelled from the spec: strict serde_json deserialization of one
CollectionData (src/collection_object.rs, not under src/). -/
def collectionFromJson : Json → Option Collection
  | Json.obj [("title", Json.str t), ("tasks", Json.arr js)] =>
    match tasksFromJson js with
    | some ts => some { title := t, tasks := ts }
    | none => none
  | _ => none

/-- Strict deserialization of a list of collections. -/
def collectionsFromJson : List Json → Option (List Collection)
  | [] => some []
  | j :: js =>
    match collectionFromJson j, collectionsFromJson js with
    | some c, some cs => some (c :: cs)
    | _, _ => none

/-- load as performed in restore_data (window.rs lines 445-461): the document
must be a JSON array of collections; parse is strict, failure is fatal. -/
def load : Json → Option (List Collection)
  | Json.arr js => collectionsFromJson js
  | _ => none

/-- restore_data (window.rs lines 445-461), run at startup on the initial
state: a missing file (File::open Err) leaves the state untouched; a present
file is parsed (a parse error panics: none); the parsed collections extend the
empty sequence and the first one, when it exists, becomes current. -/
def restore_data (file : Option Json) : Option AppState :=
  match file with
  | none => some initialState
  | some doc =>
    match load doc with
    | none => none
    | some cols =>
      some
        { collections := initialState.collections ++ cols,
          current_collection :=
            match cols.head? with
            | none => initialState.current_collection
            | some _ => some initialState.collections.length }

/-- Deserializing a serialized task list gives the list back. -/
theorem tasksFromJson_map (ts : List Task) :
    tasksFromJson (ts.map taskToJson) = some ts := by
  induction ts with
  | nil => rfl
  | cons t ts ih => simp [taskToJson, tasksFromJson, taskFromJson, ih]

/-- Deserializing a serialized collection list gives the list back. -/
theorem collectionsFromJson_map (cs : List Collection) :
    collectionsFromJson (cs.map collectionToJson) = some cs := by
  induction cs with
  | nil => rfl
  | cons c cs ih =>
    simp [collectionToJson, collectionsFromJson, collectionFromJson,
          tasksFromJson_map, ih]

/-- Loading what save wrote restores the collections exactly. -/
theorem load_save (cs : List Collection) : load (save cs) = some cs := by
  rw [save, load, collectionsFromJson_map]

/-- C1: deserializing the JSON produced by serializing any sequence of
collections yields a sequence equal to it — same collection order, same
titles, same task order, same completed flags and content strings. -/
theorem save_then_load_roundtrip (collections : List Collection) :
    load (save collections) = some collections :=
  load_save collections

/-- C2: remove_done_tasks leaves exactly the tasks whose completed flag is
false, in their original relative order, removes every completed task, and
modifies no task's fields: the result is the filter of the input keeping the
not-completed tasks. -/
theorem remove_done_tasks_removes_exactly_completed (tasks : List Task) :
    remove_done_tasks tasks = tasks.filter (fun t => !t.completed) :=
  remove_done_tasks_eq_filter tasks

/-- C3: remove_done_tasks is idempotent — applying it twice yields the same
sequence as applying it once. -/
theorem remove_done_tasks_idempotent (tasks : List Task) :
    remove_done_tasks (remove_done_tasks tasks) = remove_done_tasks tasks := by
  rw [remove_done_tasks_eq_filter, remove_done_tasks_eq_filter,
      List.filter_filter]
  simp

/-- C4: the filter policy is a pure function of the setting string — "All"
yields no predicate, "Open" yields the not-completed predicate, "Done" yields
the completed predicate, and on every task exactly one of the Open and Done
predicates holds. -/
theorem filter_policy_spec :
    filter "All" = some none ∧
    filter "Open" = some (some filter_open) ∧
    filter "Done" = some (some filter_done) ∧
    (∀ t : Task, filter_open t = !t.completed) ∧
    (∀ t : Task, filter_done t = t.completed) ∧
    (∀ t : Task,
      (filter_open t && filter_done t) = false ∧
      (filter_open t || filter_done t) = true) := by
  refine ⟨rfl, rfl, rfl, fun t => rfl, fun t => rfl, fun t => ?_⟩
  cases t with
  | mk completed content =>
    cases completed <;> simp [filter_open, filter_done]

/-- C5: a filter-setting string outside All, Open, Done hits the
unreachable!() arm — a panic, modelled by none: the program crashes rather
than choosing a fallback predicate. -/
theorem filter_invalid_setting_panics (s : String)
    (h1 : s ≠ "All") (h2 : s ≠ "Open") (h3 : s ≠ "Done") :
    filter s = none := by
  rw [filter, if_neg h1, if_neg h2, if_neg h3]

/-- Witness for C5 at the concrete setting "Garbage". -/
theorem filter_invalid_setting_panics_witness : filter "Garbage" = none :=
  filter_invalid_setting_panics "Garbage" (by decide) (by decide) (by decide)

/-- C6: adding a task with empty content leaves the sequence unchanged; with
any non-empty content (whitespace included) exactly one task with
completed = false and that content is appended at the end, existing tasks
untouched. -/
theorem new_task_spec (tasks : List Task) (content : String) :
    (content = "" → new_task tasks content = tasks) ∧
    (content ≠ "" →
      new_task tasks content =
        tasks ++ [{ completed := false, content := content }]) := by
  constructor
  · intro h
    rw [new_task, if_pos h]
  · intro h
    rw [new_task, if_neg h]

/-- Witness for C6: empty content is a no-op; whitespace-only content appends
one open task after the existing ones. -/
theorem new_task_spec_witness :
    new_task [{ completed := true, content := "a" }] "" =
      [{ completed := true, content := "a" }] ∧
    new_task [{ completed := true, content := "a" }] " " =
      [{ completed := true, content := "a" },
       { completed := false, content := " " }] :=
  ⟨(new_task_spec [{ completed := true, content := "a" }] "").1 rfl,
   (new_task_spec [{ completed := true, content := "a" }] " ").2 (by decide)⟩

/-- C7: a cancelled new-collection dialog changes nothing; a confirmed one
appends a collection with the entered title and an empty task sequence at the
end and makes it current unconditionally, whatever was current before. -/
theorem new_collection_spec (st : AppState) (response title : String) :
    (response = "cancel" → new_collection st response title = st) ∧
    (response ≠ "cancel" →
      new_collection st response title =
        { collections := st.collections ++ [{ title := title, tasks := [] }],
          current_collection := some st.collections.length }) := by
  constructor
  · intro h
    rw [new_collection, if_pos h]
  · intro h
    rw [new_collection, if_neg h]
    rfl

/-- Witness for C7 from a state whose current collection is not the last
one: cancel preserves the state, create appends and refocuses. -/
theorem new_collection_spec_witness :
    new_collection
        { collections := [{ title := "Old", tasks := [] }],
          current_collection := some 0 } "cancel" "Work" =
      { collections := [{ title := "Old", tasks := [] }],
        current_collection := some 0 } ∧
    new_collection
        { collections := [{ title := "Old", tasks := [] }],
          current_collection := some 0 } "create" "Work" =
      { collections := [{ title := "Old", tasks := [] },
                        { title := "Work", tasks := [] }],
        current_collection := some 1 } :=
  ⟨(new_collection_spec
      { collections := [{ title := "Old", tasks := [] }],
        current_collection := some 0 } "cancel" "Work").1 rfl,
   (new_collection_spec
      { collections := [{ title := "Old", tasks := [] }],
        current_collection := some 0 } "create" "Work").2 (by decide)⟩

/-- C8: after any finite sequence of create-collection and select-collection
operations from the initial state, the selection invariant holds: a non-empty
collection sequence has exactly one current collection, pointing at one of
its elements, and an empty sequence has none. -/
theorem run_from_initial_SelInv (ops : List Op) (st2 : AppState)
    (h : run initialState ops = some st2) : SelInv st2 :=
  run_preserves_SelInv ops initialState st2 rfl h

/-- Witness for C8: create, create, then select the first collection. -/
theorem run_from_initial_SelInv_witness :
    SelInv
      { collections := [{ title := "A", tasks := [] },
                        { title := "B", tasks := [] }],
        current_collection := some 0 } :=
  run_from_initial_SelInv
    [Op.createCollection "create" "A",
     Op.createCollection "create" "B",
     Op.selectCollection 0]
    { collections := [{ title := "A", tasks := [] },
                      { title := "B", tasks := [] }],
      current_collection := some 0 }
    (by decide)

/-- C9: restore_data at startup yields the no-collections state (empty
sequence, no current collection) when the file is absent or the persisted
sequence is empty, and otherwise yields the persisted collections with the
first one current. -/
theorem restore_data_spec :
    restore_data none = some initialState ∧
    restore_data (some (save [])) = some initialState ∧
    (∀ cols : List Collection, cols ≠ [] →
      restore_data (some (save cols)) =
        some { collections := cols, current_collection := some 0 }) := by
  refine ⟨rfl, rfl, fun cols h => ?_⟩
  rw [restore_data, load_save]
  cases cols with
  | nil => exact absurd rfl h
  | cons c cs => rfl

/-- Witness for C9 at a one-collection persisted sequence. -/
theorem restore_data_spec_witness :
    restore_data (some (save [{ title := "Work", tasks := [] }])) =
      some { collections := [{ title := "Work", tasks := [] }],
             current_collection := some 0 } :=
  restore_data_spec.2.2 [{ title := "Work", tasks := [] }] (by decide)

/-- C10: the remove_done_tasks loop terminates on every finite task sequence,
after at most as many iterations as the sequence initially has elements. -/
theorem remove_done_tasks_loop_terminates (tasks : List Task) :
    remove_done_tasks_steps tasks 0 ≤ tasks.length := by
  rw [remove_done_tasks_steps_eq]
  omega

end Todo
